import Mathlib

/-!
Verification development for the streamlit-messanger repository.

This file shallowly embeds the data layer of `src/app.py`:
the SQLite table `messages`, the functions `init_db`, `add_message`,
`get_conversations_for_user`, `get_messages`, and the two sidebar/button
handlers that start a chat and delete a conversation.  The table rows are
modelled as a Lean list of `Message` records in insertion order together
with the AUTOINCREMENT counter; SQL `ORDER BY id ASC` is modelled by an
insertion sort on the id field, SQL `DISTINCT` followed by Python
`list.sort()` is modelled by `List.dedup` followed by an insertion sort
with the lexicographic order on strings.  The wall clock
(`datetime.utcnow().isoformat()`) is an external input and is passed to the
operations as an explicit `ts` string argument.
-/

/-- A row of the `messages` table: columns `id`, `sender`, `receiver`,
`content`, `ts` (see the CREATE TABLE statement in `init_db`). -/
structure Message where
  id : Nat
  sender : String
  receiver : String
  content : String
  ts : String
deriving DecidableEq

/-- The database state: the rows of `messages` in insertion order, plus the
AUTOINCREMENT counter (next id to assign; SQLite never reuses an id even
after deletion). -/
structure Store where
  messages : List Message
  nextId : Nat
deriving DecidableEq

/-- `init_db` creates the table if it does not exist; the fresh database has
no rows and AUTOINCREMENT starts assigning ids at 1. -/
def init_db : Store := ⟨[], 1⟩

/-- `add_message(sender, receiver, content)`: INSERTs a row with the next
auto-assigned id and the supplied timestamp and commits.  The Python
function body has no return statement, so it returns `None`: the second
component (the value returned to the caller) is therefore `none`.  No
validation of any argument is performed. -/
def add_message (s : Store) (sender receiver content ts : String) :
    Store × Option Message :=
  (⟨s.messages ++ [⟨s.nextId, sender, receiver, content, ts⟩], s.nextId + 1⟩, none)

/-- The state effect of `add_message` (first component of the pair). -/
def addMsg (s : Store) (sender receiver content ts : String) : Store :=
  (add_message s sender receiver content ts).1

/-- The WHERE clause `sender = ? OR receiver = ?` of
`get_conversations_for_user`. -/
def involves (m : Message) (u : String) : Bool :=
  m.sender == u || m.receiver == u

/-- The CASE expression of `get_conversations_for_user`:
`CASE WHEN sender = ? THEN receiver ELSE sender END`. -/
def contactOf (u : String) (m : Message) : String :=
  if m.sender == u then m.receiver else m.sender

/-- `get_conversations_for_user(username)`: SELECT DISTINCT of the CASE
expression over the rows where `username` is sender or receiver, then the
Python `contacts.sort()`. -/
def get_conversations_for_user (s : Store) (username : String) : List String :=
  List.insertionSort (· ≤ ·)
    (((s.messages.filter (fun m => involves m username)).map
        (contactOf username)).dedup)

/-- The WHERE clause of `get_messages` and of the DELETE statement:
`(sender = a AND receiver = b) OR (sender = b AND receiver = a)`. -/
def pairMatch (m : Message) (a b : String) : Bool :=
  (m.sender == a && m.receiver == b) || (m.sender == b && m.receiver == a)

/-- Comparison by the `id` column, used for `ORDER BY id ASC`. -/
def idLe (m1 m2 : Message) : Prop := m1.id ≤ m2.id

instance : DecidableRel idLe := fun m1 m2 => Nat.decLe m1.id m2.id

instance : IsTotal Message idLe := ⟨fun a b => Nat.le_total a.id b.id⟩

instance : IsTrans Message idLe := ⟨fun _ _ _ h1 h2 => Nat.le_trans h1 h2⟩

instance : IsRefl Message idLe := ⟨fun a => Nat.le_refl a.id⟩

/-- `get_messages(user_a, user_b)`: SELECT * of the rows matching the
unordered pair, ORDER BY id ASC. -/
def get_messages (s : Store) (a b : String) : List Message :=
  List.insertionSort idLe (s.messages.filter (fun m => pairMatch m a b))

/-- The "Delete conversation" button handler: if the current user's contact
list is non-empty it DELETEs all rows matching the unordered pair
`(username, contact)` and commits.  No row count is read back
(`cur.rowcount` is never consulted) and the handler returns no value, so
the second component (the count returned to the caller) is `none`. -/
def deleteConversationHandler (s : Store) (username contact : String) :
    Store × Option Nat :=
  if get_conversations_for_user s username ≠ [] then
    (⟨s.messages.filter (fun m => !(pairMatch m username contact)), s.nextId⟩, none)
  else (s, none)

/-- The "Add / Open chat" button handler: when the entered contact is
non-empty and differs from the logged-in username it inserts the
placeholder message `[Started conversation]`; otherwise it does nothing.
The Python code raises no exception on any path, so every branch yields
`Except.ok`; the error channel records that no ValidationError (or any
other error) is ever produced. -/
def addOpenChatHandler (s : Store) (username newContact ts : String) :
    Except String Store :=
  if newContact ≠ "" ∧ newContact ≠ username then
    Except.ok (addMsg s username newContact "[Started conversation]" ts)
  else Except.ok s

/-- Database states reachable from a fresh database by the mutating
operations of the app (inserts and conversation deletes). -/
inductive Reachable : Store → Prop where
  | init : Reachable init_db
  | add {s : Store} (sender receiver content ts : String) :
      Reachable s → Reachable (addMsg s sender receiver content ts)
  | del {s : Store} (username contact : String) :
      Reachable s → Reachable (deleteConversationHandler s username contact).1

/-- A small concrete database: `alice` sends `bob` "hi" (id 1), then `bob`
answers "yo" (id 2). -/
def demoStore : Store :=
  addMsg (addMsg init_db "alice" "bob" "hi" "t1") "bob" "alice" "yo" "t2"

/-- A database holding a single message from `alice` to `bob`. -/
def s3base : Store := addMsg init_db "alice" "bob" "hi" "t1"

/-- A database holding a single self-message of user `u`. -/
def selfStore : Store := addMsg init_db "u" "u" "note" "t0"

/-! ### Helper lemmas -/

/-- The delete handler leaves the AUTOINCREMENT counter unchanged (SQLite
never reuses ids after deletion). -/
lemma deleteHandler_nextId (s : Store) (u c : String) :
    (deleteConversationHandler s u c).1.nextId = s.nextId := by
  unfold deleteConversationHandler
  split <;> rfl

/-- In every reachable database state, every stored id is below the
AUTOINCREMENT counter. -/
lemma reachable_id_lt_nextId {s : Store} (h : Reachable s) :
    ∀ m ∈ s.messages, m.id < s.nextId := by
  induction h with
  | init => intro m hm; simp [init_db] at hm
  | add sender receiver content ts _ ih =>
      intro m hm
      simp only [addMsg, add_message, List.mem_append, List.mem_singleton] at hm
      rcases hm with hm | hm
      · exact Nat.lt_succ_of_lt (ih m hm)
      · subst hm; exact Nat.lt_succ_self _
  | del username contact _ ih =>
      intro m hm
      rw [deleteHandler_nextId]
      unfold deleteConversationHandler at hm
      split at hm
      · exact ih m (List.mem_of_mem_filter hm)
      · exact ih m hm

/-- Inserting into a list followed by a strictly later element commutes with
appending that element, provided the inserted element precedes it. -/
lemma orderedInsert_concat_of_le (a x : Message) (h : idLe a x) (l : List Message) :
    List.orderedInsert idLe a (l ++ [x]) = List.orderedInsert idLe a l ++ [x] := by
  induction l with
  | nil => simp [List.orderedInsert, if_pos h]
  | cons b t ih =>
      by_cases hb : idLe a b
      · simp [List.orderedInsert, hb]
      · simp [List.orderedInsert, hb, ih]

/-- Sorting a list whose final element dominates the rest keeps that element
last. -/
lemma insertionSort_concat_of_le (x : Message) (l : List Message) :
    (∀ y ∈ l, idLe y x) →
      List.insertionSort idLe (l ++ [x]) = List.insertionSort idLe l ++ [x] := by
  induction l with
  | nil => intro _; simp [List.insertionSort, List.orderedInsert]
  | cons a t ih =>
      intro h
      simp only [List.cons_append, List.append_eq, List.insertionSort]
      rw [ih (fun y hy => h y (List.mem_cons_of_mem a hy))]
      exact orderedInsert_concat_of_le a x (h a (List.mem_cons_self a t)) _

/-- Sorting a list of strings yields the empty list only from the empty
list. -/
lemma insertionSort_str_eq_nil {l : List String}
    (h : List.insertionSort (· ≤ ·) l = []) : l = [] := by
  have hp := List.perm_insertionSort (α := String) (· ≤ ·) l
  rw [h] at hp
  exact (hp.symm.eq_nil)

/-- If the contact list of `u` is empty, no stored row involves `u`. -/
lemma not_involved_of_contacts_nil {s : Store} {u : String}
    (h : get_conversations_for_user s u = []) :
    ∀ m ∈ s.messages, involves m u = false := by
  unfold get_conversations_for_user at h
  have h1 := insertionSort_str_eq_nil h
  rw [List.dedup_eq_nil, List.map_eq_nil_iff] at h1
  intro m hm
  by_contra hinv
  have : m ∈ s.messages.filter (fun m => involves m u) := by
    rw [List.mem_filter]
    exact ⟨hm, by simpa using hinv⟩
  rw [h1] at this
  exact absurd this (List.not_mem_nil m)

/-- A row matching the unordered pair `(u, c)` involves `u`. -/
lemma involves_of_pairMatch {m : Message} {u c : String}
    (h : pairMatch m u c = true) : involves m u = true := by
  simp only [pairMatch, Bool.or_eq_true, Bool.and_eq_true, beq_iff_eq] at h
  simp only [involves, Bool.or_eq_true, beq_iff_eq]
  rcases h with ⟨h1, _⟩ | ⟨_, h2⟩
  · exact Or.inl h1
  · exact Or.inr h2

/-- The state effect of the delete handler, with the contact-list guard
discharged: the surviving rows are exactly those not matching the unordered
pair (when the guard fails there was no matching row to begin with). -/
lemma deleteHandler_messages_eq (s : Store) (u c : String) :
    (deleteConversationHandler s u c).1.messages
      = s.messages.filter (fun m => !(pairMatch m u c)) := by
  unfold deleteConversationHandler
  by_cases hg : get_conversations_for_user s u ≠ []
  · rw [if_pos hg]
  · rw [if_neg hg]
    push_neg at hg
    have hni := not_involved_of_contacts_nil hg
    have : ∀ m ∈ s.messages, (!(pairMatch m u c)) = true := by
      intro m hm
      by_contra hb
      have hpm : pairMatch m u c = true := by
        revert hb; cases pairMatch m u c <;> simp
      have := involves_of_pairMatch hpm
      rw [hni m hm] at this
      exact Bool.false_ne_true this
    exact (List.filter_eq_self.mpr this).symm

/-- The delete handler never returns a row count. -/
lemma deleteHandler_snd_eq_none (s : Store) (u c : String) :
    (deleteConversationHandler s u c).2 = none := by
  unfold deleteConversationHandler
  by_cases hg : get_conversations_for_user s u ≠ []
  · rw [if_pos hg]
  · rw [if_neg hg]

/-- Membership in a contact list, unfolded to the underlying rows. -/
lemma mem_contacts_iff (s : Store) (u x : String) :
    x ∈ get_conversations_for_user s u
      ↔ ∃ m ∈ s.messages, involves m u = true ∧ contactOf u m = x := by
  unfold get_conversations_for_user
  rw [List.mem_insertionSort, List.mem_dedup, List.mem_map]
  constructor
  · rintro ⟨m, hm, hx⟩
    rw [List.mem_filter] at hm
    exact ⟨m, hm.1, hm.2, hx⟩
  · rintro ⟨m, hm, hinv, hx⟩
    exact ⟨m, List.mem_filter.mpr ⟨hm, hinv⟩, hx⟩

/-- If no surviving row matches the unordered pair `(A, B)`, then `B` is not
a contact of `A`. -/
lemma not_mem_contacts_of_no_pair {t : Store} {A B : String}
    (h : ∀ m ∈ t.messages, pairMatch m A B = false) :
    B ∉ get_conversations_for_user t A := by
  intro hB
  rw [mem_contacts_iff] at hB
  rcases hB with ⟨m, hm, hinv, hc⟩
  have hnp := h m hm
  simp only [pairMatch, Bool.or_eq_false_iff, Bool.and_eq_false_iff,
    beq_eq_false_iff_ne, ne_eq] at hnp
  simp only [involves, Bool.or_eq_true, beq_iff_eq] at hinv
  unfold contactOf at hc
  by_cases hs : m.sender == A
  · rw [if_pos hs] at hc
    rw [beq_iff_eq] at hs
    rcases hnp.1 with h1 | h1
    · exact h1 hs
    · exact h1 hc
  · rw [if_neg hs] at hc
    rw [beq_iff_eq] at hs
    have hr : m.receiver = A := by
      rcases hinv with h1 | h1
      · exact absurd h1 hs
      · exact h1
    rcases hnp.2 with h2 | h2
    · exact h2 hc
    · exact h2 hr

/-- The placeholder row inserted by the chat-opening handler makes the new
contact appear in the opener's contact list. -/
lemma mem_contacts_after_addMsg (s : Store) (A B c ts : String) :
    B ∈ get_conversations_for_user (addMsg s A B c ts) A := by
  rw [mem_contacts_iff]
  refine ⟨⟨s.nextId, A, B, c, ts⟩, ?_, ?_, ?_⟩
  · simp [addMsg, add_message]
  · simp [involves]
  · simp [contactOf]

/-! ### Claim theorems -/

/-- C1 (counterexample): calling `add_message` with an empty sender string
does insert a row (and raises nothing), contradicting the claim that the
operation fails with `ValidationError` and inserts no message. -/
theorem C1_counterexample :
    (add_message init_db "" "bob" "hi" "t0").1.messages
      = [Message.mk 1 "" "bob" "hi" "t0"] := rfl

/-- C1 (amended): `add_message` performs no validation at all: even when
sender, receiver, or content is the empty string, the row is inserted with
the next auto-assigned id, and no error of any kind is raised (the function
is total). -/
theorem C1_no_validation (s : Store) (sender receiver content ts : String)
    (_h : sender = "" ∨ receiver = "" ∨ content = "") :
    (add_message s sender receiver content ts).1.messages
      = s.messages ++ [Message.mk s.nextId sender receiver content ts] := rfl

/-- C1 witness: the amended statement instantiated with an empty sender on
the fresh database. -/
theorem C1_no_validation_witness :
    (add_message init_db "" "b" "c" "t").1.messages
      = init_db.messages ++ [Message.mk 1 "" "b" "c" "t"] :=
  C1_no_validation init_db "" "b" "c" "t" (Or.inl rfl)

/-- C2 (counterexample): for perfectly valid inputs, `add_message` returns
`none` — in particular not the persisted message with its assigned id 1 and
timestamp — contradicting the claim that the append operation returns the
persisted Message. -/
theorem C2_counterexample :
    (add_message init_db "alice" "bob" "hi" "t0").2 = none ∧
      (add_message init_db "alice" "bob" "hi" "t0").2
        ≠ some (Message.mk 1 "alice" "bob" "hi" "t0") :=
  ⟨rfl, by decide⟩

/-- C2 (amended): for every sender, receiver and content, `add_message`
persists a row carrying the store-assigned id (the AUTOINCREMENT counter)
and the supplied UTC timestamp, and advances the counter — but it returns
nothing to the caller (the Python function has no return statement). -/
theorem C2_persists_but_returns_nothing (s : Store)
    (sender receiver content ts : String) :
    (add_message s sender receiver content ts).2 = none ∧
      (add_message s sender receiver content ts).1.messages
        = s.messages ++ [Message.mk s.nextId sender receiver content ts] ∧
      (add_message s sender receiver content ts).1.nextId = s.nextId + 1 :=
  ⟨rfl, rfl, rfl⟩

/-- C3: on any reachable database, appending a message and then fetching the
conversation of its sender and receiver yields a sequence whose last element
is exactly the appended message, and the appended message's id (the
AUTOINCREMENT counter) is strictly greater than the id of every message
stored earlier, whatever pair those messages belong to. -/
theorem C3_append_then_fetch (s : Store) (h : Reachable s)
    (sender receiver content ts : String) :
    (get_messages (addMsg s sender receiver content ts) sender receiver).getLast?
        = some (Message.mk s.nextId sender receiver content ts) ∧
      ∀ m ∈ s.messages,
        m.id < (Message.mk s.nextId sender receiver content ts).id := by
  refine ⟨?_, fun m hm => reachable_id_lt_nextId h m hm⟩
  show (List.insertionSort idLe
      ((s.messages ++ [Message.mk s.nextId sender receiver content ts]).filter
        (fun m => pairMatch m sender receiver))).getLast?
    = some (Message.mk s.nextId sender receiver content ts)
  rw [List.filter_append]
  have hp : pairMatch (Message.mk s.nextId sender receiver content ts)
      sender receiver = true := by
    simp [pairMatch]
  simp only [List.filter_cons, List.filter_nil, hp, if_true]
  rw [insertionSort_concat_of_le _ _
    (fun y hy =>
      Nat.le_of_lt (reachable_id_lt_nextId h y (List.mem_of_mem_filter hy)))]
  exact List.getLast?_concat _

/-- C3 witness: the statement instantiated on the database that already
holds one `alice`/`bob` message; the fetched thread ends with the newly
appended message, which got id 2. -/
theorem C3_witness :
    (get_messages (addMsg s3base "alice" "bob" "hello" "t2") "alice" "bob").getLast?
      = some (Message.mk 2 "alice" "bob" "hello" "t2") :=
  (C3_append_then_fetch s3base
    (Reachable.add "alice" "bob" "hi" "t1" Reachable.init)
    "alice" "bob" "hello" "t2").1

/-- C4: `get_messages` is symmetric in its two user arguments: for every
store state, `get_messages s a b` and `get_messages s b a` are identical
sequences. -/
theorem C4_fetch_symmetric (s : Store) (a b : String) :
    get_messages s a b = get_messages s b a := by
  unfold get_messages
  have hpq : (fun m => pairMatch m a b) = fun m => pairMatch m b a := by
    funext m
    simp only [pairMatch]
    exact Bool.or_comm _ _
  rw [hpq]

/-- C5: for every store state and users `a`, `b`, `get_messages s a b` is
sorted ascending by id, is a permutation of exactly the stored rows whose
(sender, receiver) is (a, b) or (b, a) (so it contains precisely those
messages), and is the empty sequence — not an error — when no such row
exists. -/
theorem C5_fetch_exact (s : Store) (a b : String) :
    List.Sorted idLe (get_messages s a b) ∧
      (get_messages s a b).Perm
        (s.messages.filter (fun m => pairMatch m a b)) ∧
      (∀ m, m ∈ get_messages s a b ↔
        m ∈ s.messages ∧
          ((m.sender = a ∧ m.receiver = b) ∨ (m.sender = b ∧ m.receiver = a))) ∧
      ((∀ m ∈ s.messages, pairMatch m a b = false) →
        get_messages s a b = []) := by
  refine ⟨List.sorted_insertionSort idLe _, List.perm_insertionSort idLe _, ?_, ?_⟩
  · intro m
    unfold get_messages
    rw [List.mem_insertionSort, List.mem_filter]
    simp only [pairMatch, Bool.or_eq_true, Bool.and_eq_true, beq_iff_eq]
  · intro hnone
    unfold get_messages
    have hnil : s.messages.filter (fun m => pairMatch m a b) = [] :=
      List.filter_eq_nil_iff.mpr fun m hm => by simp [hnone m hm]
    rw [hnil]
    rfl

/-- C5 witness: on the demo database, the `alice`/`bob` thread is sorted by
id, and a pair with no messages gets the empty sequence. -/
theorem C5_witness :
    List.Sorted idLe (get_messages demoStore "alice" "bob") ∧
      get_messages demoStore "carol" "dave" = [] :=
  ⟨(C5_fetch_exact demoStore "alice" "bob").1,
    (C5_fetch_exact demoStore "carol" "dave").2.2.2 (by decide)⟩

/-- C6: for every store state and user `u`, `get_conversations_for_user`
returns a lexicographically sorted, duplicate-free list; its members are
exactly the other-party identities (the CASE expression value) of the rows
where `u` is sender or receiver; and it is the empty sequence when no row
involves `u`. -/
theorem C6_contacts (s : Store) (u : String) :
    List.Sorted (· ≤ ·) (get_conversations_for_user s u) ∧
      (get_conversations_for_user s u).Nodup ∧
      (∀ x, x ∈ get_conversations_for_user s u ↔
        ∃ m ∈ s.messages, (m.sender = u ∨ m.receiver = u) ∧ contactOf u m = x) ∧
      ((∀ m ∈ s.messages, ¬(m.sender = u ∨ m.receiver = u)) →
        get_conversations_for_user s u = []) := by
  refine ⟨List.sorted_insertionSort _ _, ?_, ?_, ?_⟩
  · unfold get_conversations_for_user
    rw [List.Perm.nodup_iff (List.perm_insertionSort _ _)]
    exact List.nodup_dedup _
  · intro x
    rw [mem_contacts_iff]
    simp only [involves, Bool.or_eq_true, beq_iff_eq]
  · intro hnone
    unfold get_conversations_for_user
    have hnil : s.messages.filter (fun m => involves m u) = [] :=
      List.filter_eq_nil_iff.mpr fun m hm => by
        simp only [involves, Bool.or_eq_true, beq_iff_eq]
        exact hnone m hm
    rw [hnil]
    rfl

/-- C6 witness: on the demo database, `alice`'s contact list is sorted and
duplicate-free. -/
theorem C6_witness :
    List.Sorted (· ≤ ·) (get_conversations_for_user demoStore "alice") ∧
      (get_conversations_for_user demoStore "alice").Nodup :=
  ⟨(C6_contacts demoStore "alice").1, (C6_contacts demoStore "alice").2.1⟩

/-- C7: the delete handler removes exactly the rows whose unordered
sender/receiver pair is `{A, B}`: the surviving rows are the filter of the
old rows by non-membership in the pair, every row not matching the pair
survives, and afterwards `B` is no longer a contact of `A`. -/
theorem C7_delete_frame (s : Store) (A B : String) :
    (deleteConversationHandler s A B).1.messages
        = s.messages.filter (fun m => !(pairMatch m A B)) ∧
      (∀ m ∈ s.messages, pairMatch m A B = false →
        m ∈ (deleteConversationHandler s A B).1.messages) ∧
      B ∉ get_conversations_for_user (deleteConversationHandler s A B).1 A := by
  refine ⟨deleteHandler_messages_eq s A B, ?_, ?_⟩
  · intro m hm hnp
    rw [deleteHandler_messages_eq, List.mem_filter]
    exact ⟨hm, by simp [hnp]⟩
  · apply not_mem_contacts_of_no_pair
    intro m hm
    rw [deleteHandler_messages_eq, List.mem_filter] at hm
    have h2 := hm.2
    revert h2
    cases pairMatch m A B <;> simp

/-- C7 witness: after deleting the `alice`/`bob` conversation of the demo
database, `bob` is no longer a contact of `alice`. -/
theorem C7_witness :
    "bob" ∉ get_conversations_for_user
      (deleteConversationHandler demoStore "alice" "bob").1 "alice" :=
  (C7_delete_frame demoStore "alice" "bob").2.2

/-- C8 (counterexample): deleting the `alice`/`bob` conversation of the demo
database removes its two messages but the handler returns `none` — not the
count 2 — contradicting the claim that the delete operation returns the
integer count of removed messages. -/
theorem C8_counterexample :
    (deleteConversationHandler demoStore "alice" "bob").2 = none ∧
      (deleteConversationHandler demoStore "alice" "bob").2 ≠ some 2 := by
  constructor
  · exact deleteHandler_snd_eq_none demoStore "alice" "bob"
  · rw [deleteHandler_snd_eq_none demoStore "alice" "bob"]
    decide

/-- C8 (amended): the delete handler removes every row matching the
unordered pair (removing nothing, without error, when no such row exists)
but returns no count at all: the cursor's row count is never read and the
handler produces no value. -/
theorem C8_delete_returns_no_count (s : Store) (u c : String) :
    (deleteConversationHandler s u c).1.messages
        = s.messages.filter (fun m => !(pairMatch m u c)) ∧
      (deleteConversationHandler s u c).2 = none :=
  ⟨deleteHandler_messages_eq s u c, deleteHandler_snd_eq_none s u c⟩

/-- C9 (counterexample): opening a chat with oneself does not fail with
`ValidationError`: the handler succeeds (returns `Except.ok`) and merely
leaves the database unchanged. -/
theorem C9_counterexample :
    addOpenChatHandler init_db "alice" "alice" "t0" = Except.ok init_db := rfl

/-- C9 (amended): when the entered contact is empty or equal to the
logged-in user, the chat-opening handler silently does nothing (no error is
raised, no message is appended); when the contact is non-empty and differs
from the user, it appends exactly one `[Started conversation]` marker
message from the user to the contact, after which the contact appears in
the user's contact list. -/
theorem C9_start_conversation (s : Store) (A B ts : String) :
    (B = "" ∨ B = A → addOpenChatHandler s A B ts = Except.ok s) ∧
      (B ≠ "" → B ≠ A →
        addOpenChatHandler s A B ts
            = Except.ok (addMsg s A B "[Started conversation]" ts) ∧
          B ∈ get_conversations_for_user
            (addMsg s A B "[Started conversation]" ts) A) := by
  constructor
  · intro h
    have hnc : ¬(B ≠ "" ∧ B ≠ A) := fun hc => by
      rcases h with h | h
      · exact hc.1 h
      · exact hc.2 h
    unfold addOpenChatHandler
    rw [if_neg hnc]
  · intro h1 h2
    refine ⟨?_, mem_contacts_after_addMsg s A B _ ts⟩
    unfold addOpenChatHandler
    rw [if_pos ⟨h1, h2⟩]

/-- C9 witness: the amended statement instantiated on a fresh database with
`alice` opening a chat with `bob`. -/
theorem C9_witness :
    addOpenChatHandler init_db "alice" "bob" "t9"
        = Except.ok (addMsg init_db "alice" "bob" "[Started conversation]" "t9") ∧
      "bob" ∈ get_conversations_for_user
        (addMsg init_db "alice" "bob" "[Started conversation]" "t9") "alice" :=
  (C9_start_conversation init_db "alice" "bob" "t9").2 (by decide) (by decide)

/-- C10: if the store holds a self-message of user `u` (sender and receiver
both `u`), then `u` appears in their own contact list: the CASE expression
yields the receiver, i.e. `u` itself, for such a row. -/
theorem C10_self_message_self_contact (s : Store) (u : String)
    (h : ∃ m ∈ s.messages, m.sender = u ∧ m.receiver = u) :
    u ∈ get_conversations_for_user s u := by
  rcases h with ⟨m, hm, hs, hr⟩
  rw [mem_contacts_iff]
  refine ⟨m, hm, ?_, ?_⟩
  · simp [involves, hs]
  · simp [contactOf, hs, hr]

/-- C10 witness: on the database holding only the self-message of `u`, the
user `u` is a member of their own contact list. -/
theorem C10_witness : "u" ∈ get_conversations_for_user selfStore "u" :=
  C10_self_message_self_contact selfStore "u" (by decide)
